import Mathlib

/-!
Verification development for the xv6-style file-system consistency checker
(`fcheck.c`).  The checker operates over a read-only image through typed
views: the superblock, inode records, directory-entry blocks, indirect
address blocks and the allocation bitmap.  We embed those views as total
functions on an `FSImage` structure and translate each validator of
`fcheck.c` into an executable Lean function returning `Except String Unit`
(`Except.error m` plays the role of `exit_with_error(m)`; fail-fast
sequencing is `Except` bind).

The repository's `include/fs.h` / `include/types.h` headers are not part of
the source tree; the geometry constants below are modelled from the spec
(fixed 512-byte blocks, 4-byte block addresses, 2-byte directory inode
numbers, a fixed prefix of direct slots plus one indirect slot), with the
standard xv6 values they denote.
-/

/-- Modelled from the spec: number of direct address slots in an inode
(`NDIRECT` of the missing `include/fs.h`; the inode holds this many direct
slots followed by exactly one indirect slot). -/
def NDIRECT : Nat := 12

/-- Modelled from the spec: number of 4-byte block addresses inside one
512-byte indirect block (`NINDIRECT = BSIZE / 4`). -/
def NINDIRECT : Nat := 128

/-- Modelled from the spec: number of 16-byte directory entries inside one
512-byte block (`BSIZE / sizeof(struct dirent)`). -/
def entriesPerBlock : Nat := 32

/-- Modelled from the spec: inodes per block (`IPB = BSIZE / sizeof(struct dinode)`). -/
def IPB : Nat := 8

/-- Modelled from the spec: bitmap bits per block (`BPB = BSIZE * 8`). -/
def BPB : Nat := 4096

/-- A directory entry: a 2-byte inode number and a fixed-length name
(`struct dirent`).  A zero inode number denotes an unused slot. -/
structure Dirent where
  inum : Nat
  name : String
deriving DecidableEq

/-- An on-disk inode record (`struct dinode`): type (0 = free, 1 = directory,
2 = regular file, 3 = device), link count, and the address array
`addrs[NDIRECT+1]` (indices `0..NDIRECT-1` direct, index `NDIRECT` indirect).
The C fields `type`/`nlink` are signed shorts, so they are embedded as `Int`;
block addresses are unsigned 4-byte values, embedded as `Nat`. -/
structure Dinode where
  itype : Int
  nlink : Int
  addrs : Nat → Nat

/-- The superblock fields the checker reads: `size` (total block count),
`nblocks` (data-block count) and `ninodes` (inode count). -/
structure Superblock where
  size : Nat
  nblocks : Nat
  ninodes : Nat

/-- The typed views of the memory-mapped image that `fcheck.c` reads:
the superblock, the inode record at an index, the bitmap bit of a block
address (`is_bit_set`), the `NINDIRECT` 4-byte words of a block read as an
indirect block, and the `entriesPerBlock` directory entries of a block. -/
structure FSImage where
  sb : Superblock
  inode : Nat → Dinode
  bitmap : Nat → Bool
  indirectAt : Nat → Nat → Nat
  direntAt : Nat → Nat → Dirent

/-- `startingblock` as computed in `main`:
`((sb->ninodes/(IPB))+1)+((sb->size/(BPB))+1)+2`. -/
def startingBlock (sb : Superblock) : Nat :=
  (sb.ninodes / IPB + 1) + (sb.size / BPB + 1) + 2

/-- Run a loop body over a list of indices, stopping at the first error —
the shape of every `for`-loop in `fcheck.c` whose body can call
`exit_with_error`. -/
def firstErr (f : Nat → Except String Unit) : List Nat → Except String Unit
  | [] => Except.ok ()
  | i :: rest =>
    match f i with
    | Except.ok _ => firstErr f rest
    | Except.error e => Except.error e

/-- `validate_inode_type` (check 1): a processed inode's type must be one of
`INODE_DIR = 1`, `INODE_FILE = 2`, `INODE_DEV = 3`, else `bad inode.`. -/
def validate_inode_type (ino : Dinode) : Except String Unit :=
  if ino.itype ≠ 2 ∧ ino.itype ≠ 1 ∧ ino.itype ≠ 3 then
    Except.error "bad inode."
  else Except.ok ()

/-- `validate_block_addresses` (check 2): every non-zero direct address and
the indirect address, together with every non-zero entry of the indirect
block, must be `< sb->size`.  (The C comparisons `address < 0` on the
unsigned values are identically false and are dropped.) -/
def validate_block_addresses (fs : FSImage) (ino : Dinode) : Except String Unit := do
  firstErr (fun d =>
      if ino.addrs d ≠ 0 ∧ fs.sb.size ≤ ino.addrs d then
        Except.error "bad direct address in inode."
      else Except.ok ()) (List.range' 0 NDIRECT)
  let ia := ino.addrs NDIRECT
  if ia = 0 then Except.ok ()
  else if fs.sb.size ≤ ia then Except.error "bad indirect address in inode."
  else
    firstErr (fun k =>
        if fs.indirectAt ia k ≠ 0 ∧ fs.sb.size ≤ fs.indirectAt ia k then
          Except.error "bad indirect address in inode."
        else Except.ok ()) (List.range' 0 NINDIRECT)

/-- The scan inside `validate_directory_structure`: walk the directory
entries in order carrying the `found_dot` / `found_dotdot` flags.  A `.`
entry whose inode number differs from the directory's own number fails with
`directory not properly formatted` (note: this message in the C source lacks
the trailing period); a `..` entry fails with `root directory does not
exist.` when the directory is the root and the entry's number is not 1, or
when it is not the root and the entry points back to the directory itself.
The loop breaks out (successfully) as soon as both flags are set, and after
the walk a missing `.` or `..` fails with `directory not properly
formatted.`. -/
def dirScan (inum : Nat) : List Dirent → Bool → Bool → Except String Unit
  | [], fd, fdd =>
    if fd && fdd then Except.ok ()
    else Except.error "directory not properly formatted."
  | e :: rest, fd, fdd =>
    if e.name = "." then
      if e.inum ≠ inum then Except.error "directory not properly formatted"
      else if fdd then Except.ok ()
      else dirScan inum rest true fdd
    else if e.name = ".." then
      if (inum = 1 ∧ e.inum ≠ inum) ∨ (inum ≠ 1 ∧ e.inum = inum) then
        Except.error "root directory does not exist."
      else if fd then Except.ok ()
      else dirScan inum rest fd true
    else if fd && fdd then Except.ok ()
    else dirScan inum rest fd fdd

/-- The directory entries scanned by `validate_directory_structure`: the
`entriesPerBlock` entries of each non-zero direct block, in order.  (Only
direct blocks are inspected; the indirect block is not.) -/
def directEntries (fs : FSImage) (ino : Dinode) : List Dirent :=
  (List.range' 0 NDIRECT).flatMap (fun d =>
    if ino.addrs d = 0 then []
    else (List.range' 0 entriesPerBlock).map (fs.direntAt (ino.addrs d)))

/-- `validate_directory_structure` (checks 3 and 4), as called from
`validate_inodes`.  (The similar functions `check_root_directory` and
`check_directory_entries` in `fcheck.c` are never called from `main` and are
dead code.) -/
def validate_directory_structure (fs : FSImage) (ino : Dinode) (inum : Nat) :
    Except String Unit :=
  dirScan inum (directEntries fs ino) false false

/-- `validate_bitmap_addr` (check 5): every non-zero address in
`addrs[0..NDIRECT]` must have its bitmap bit set, and when the loop reaches
the indirect slot (`idx == NDIRECT`) it additionally scans the `NINDIRECT`
words of the block at `addrs[NDIRECT]` — the C code performs this scan even
when `addrs[NDIRECT]` is zero, in which case it reads block 0. -/
def validate_bitmap_addr (fs : FSImage) (ino : Dinode) : Except String Unit :=
  firstErr (fun d => do
      let a := ino.addrs d
      if a ≠ 0 ∧ fs.bitmap a = false then
        Except.error "address used by inode but marked free in bitmap."
      else Except.ok ()
      if d = NDIRECT then
        firstErr (fun k =>
            if fs.indirectAt a k ≠ 0 ∧ fs.bitmap (fs.indirectAt a k) = false then
              Except.error "address used by inode but marked free in bitmap."
            else Except.ok ()) (List.range' 0 NINDIRECT)
      else Except.ok ()) (List.range' 0 (NDIRECT + 1))

/-- The body of the `validate_inodes` loop for one inode index: free inodes
are skipped entirely; otherwise checks 1, 2, 3/4 (with the root-specific
type test at index 1) and 5 run in this order. -/
def processInode (fs : FSImage) (idx : Nat) : Except String Unit :=
  let ino := fs.inode idx
  if ino.itype = 0 then Except.ok ()
  else do
    validate_inode_type ino
    validate_block_addresses fs ino
    if idx = 1 then
      if ino.itype ≠ 1 then Except.error "root directory does not exist."
      else validate_directory_structure fs ino 1
    else if ino.itype = 1 then validate_directory_structure fs ino idx
    else Except.ok ()
    validate_bitmap_addr fs ino

/-- `validate_inodes`: run the per-inode checks over inode indices
`0, 1, …, ninodes-1` in ascending order, stopping at the first error. -/
def validate_inodes (fs : FSImage) : Except String Unit :=
  firstErr (processInode fs) (List.range' 0 fs.sb.ninodes)

/-- `get_active_data_blocks` (check 6, marking phase) for one inode: the
list of indices `address - startingblock` it sets in `used_blocks_array`.
The C subtraction is on unsigned values and the array write is unchecked;
the index is embedded as the mathematical integer `address - startingblock`
(negative values correspond to the out-of-bounds accesses examined in C10).
Unlike `validate_bitmap_addr`, the indirect scan here is guarded: the
`continue` on a zero address skips the `idx == NDIRECT` body. -/
def get_active_data_blocks (fs : FSImage) (ino : Dinode) : List Int :=
  (List.range' 0 (NDIRECT + 1)).flatMap (fun d =>
    let a := ino.addrs d
    if a = 0 then []
    else
      ((a : Int) - (startingBlock fs.sb : Int)) ::
        (if d = NDIRECT then
          (List.range' 0 NINDIRECT).filterMap (fun k =>
            if fs.indirectAt a k = 0 then none
            else some ((fs.indirectAt a k : Int) - (startingBlock fs.sb : Int)))
        else []))

/-- The aggregated marking pass of `verify_bitmap_usage`: indices marked by
all in-use inodes. -/
def usedBlocksList (fs : FSImage) : List Int :=
  (List.range' 0 fs.sb.ninodes).flatMap (fun i =>
    if (fs.inode i).itype = 0 then [] else get_active_data_blocks fs (fs.inode i))

/-- One iteration of the verification loop of `verify_bitmap_usage`: data
block index `b` (block address `b + startingblock`) whose usage flag is
unset but whose bitmap bit is set fails with
`bitmap marks block in use but it is not in use.`. -/
def bmCheckAt (fs : FSImage) (b : Nat) : Except String Unit :=
  if (usedBlocksList fs).contains ((b : Int)) = false ∧
      fs.bitmap (b + startingBlock fs.sb) = true then
    Except.error "bitmap marks block in use but it is not in use."
  else Except.ok ()

/-- `verify_bitmap_usage` (check 6): mark the blocks used by in-use inodes,
then scan data-block indices `0, …, nblocks-1` in ascending order. -/
def verify_bitmap_usage (fs : FSImage) : Except String Unit :=
  firstErr (bmCheckAt fs) (List.range' 0 fs.sb.nblocks)

/-- `tally_direct_block_usage` (check 7) for one inode: the indices
`address - startingblock` whose direct-occurrence counters it increments
(one per non-zero direct slot; the indirect slot is not included). -/
def tally_direct_block_usage (fs : FSImage) (ino : Dinode) : List Int :=
  (List.range' 0 NDIRECT).filterMap (fun d =>
    if ino.addrs d = 0 then none
    else some ((ino.addrs d : Int) - (startingBlock fs.sb : Int)))

/-- `count_indirect_block_usage` (check 8) for one inode: the indices whose
indirect-occurrence counters it increments (one per non-zero word of the
indirect block, when the indirect slot is non-zero; the indirect block's own
address is not counted). -/
def count_indirect_block_usage (fs : FSImage) (ino : Dinode) : List Int :=
  let ia := ino.addrs NDIRECT
  if ia = 0 then []
  else
    (List.range' 0 NINDIRECT).filterMap (fun k =>
      if fs.indirectAt ia k = 0 then none
      else some ((fs.indirectAt ia k : Int) - (startingBlock fs.sb : Int)))

/-- All direct-counter increments of `validate_block_address_uniqueness`,
accumulated over the in-use inodes. -/
def directIdxList (fs : FSImage) : List Int :=
  (List.range' 0 fs.sb.ninodes).flatMap (fun i =>
    if (fs.inode i).itype = 0 then [] else tally_direct_block_usage fs (fs.inode i))

/-- All indirect-counter increments of `validate_block_address_uniqueness`,
accumulated over the in-use inodes. -/
def indirectIdxList (fs : FSImage) : List Int :=
  (List.range' 0 fs.sb.ninodes).flatMap (fun i =>
    if (fs.inode i).itype = 0 then []
    else count_indirect_block_usage fs (fs.inode i))

/-- The value of `direct_usage_counts` at index `b` after accumulation. -/
def directCountAt (fs : FSImage) (b : Int) : Nat := (directIdxList fs).count b

/-- The value of `indirect_usage_counts` at index `b` after accumulation. -/
def indirectCountAt (fs : FSImage) (b : Int) : Nat := (indirectIdxList fs).count b

/-- One iteration of the verification loop of
`validate_block_address_uniqueness`: at block index `b` the direct counter
is examined before the indirect counter. -/
def uniqCheckAt (fs : FSImage) (b : Nat) : Except String Unit :=
  if 1 < directCountAt fs (b : Int) then
    Except.error "direct address used more than once."
  else if 1 < indirectCountAt fs (b : Int) then
    Except.error "indirect address used more than once."
  else Except.ok ()

/-- `validate_block_address_uniqueness` (checks 7 and 8): accumulate both
counters over all in-use inodes, then scan block indices `0, …, nblocks-1`
in ascending order. -/
def validate_block_address_uniqueness (fs : FSImage) : Except String Unit :=
  firstErr (uniqCheckAt fs) (List.range' 0 fs.sb.nblocks)

/-- The inode numbers of the entries of directory block `b` that
`scan_directory_entries` follows: non-zero inode number and a name that is
neither `.` nor `..` (each such entry both increments `inodemap[inum]` and
is pushed on the stack). -/
def entryInums (fs : FSImage) (b : Nat) : List Nat :=
  (List.range' 0 entriesPerBlock).filterMap (fun e =>
    let d := fs.direntAt b e
    if d.inum ≠ 0 ∧ d.name ≠ "." ∧ d.name ≠ ".." then some d.inum else none)

/-- The inode numbers followed when `scan_directory_entries` pops inode `i`:
nothing if `i` is not a directory; otherwise the qualifying entries of every
non-zero direct block, then of every non-zero word of the indirect block
(when the indirect slot is non-zero), in scan order. -/
def childrenOf (fs : FSImage) (i : Nat) : List Nat :=
  let ino := fs.inode i
  if ino.itype ≠ 1 then []
  else
    ((List.range' 0 NDIRECT).filterMap (fun d =>
        if ino.addrs d = 0 then none else some (ino.addrs d))).flatMap
      (entryInums fs) ++
    (if ino.addrs NDIRECT = 0 then []
     else
       ((List.range' 0 NINDIRECT).filterMap (fun k =>
           if fs.indirectAt (ino.addrs NDIRECT) k = 0 then none
           else some (fs.indirectAt (ino.addrs NDIRECT) k))).flatMap
         (entryInums fs))

/-- One iteration of the `while (stackTop > 0)` loop of
`scan_directory_entries`: pop the top inode index, increment the reference
counter of every followed entry, and push the followed inode indices (LIFO:
the children are popped in reverse push order). -/
def scanStep (fs : FSImage) :
    List Nat × (Nat → Nat) → List Nat × (Nat → Nat)
  | ([], refs) => ([], refs)
  | (i :: s, refs) =>
    ((childrenOf fs i).reverse ++ s,
      fun j => refs j + (childrenOf fs i).count j)

/-- `scan_directory_entries`, run for a given number of loop iterations
(the C loop has no such bound; it stops only when the stack empties, which
claim C8 examines). -/
def scan_directory_entries (fs : FSImage) :
    Nat → List Nat × (Nat → Nat) → List Nat × (Nat → Nat)
  | 0, st => st
  | n + 1, st => scan_directory_entries fs n (scanStep fs st)

/-- The seeding of `inode_references` in `validate_directory_rules`:
zero-initialised, then `inode_references[0]++` and `inode_references[1]++`. -/
def initialRefs : Nat → Nat := fun j => if j = 0 ∨ j = 1 then 1 else 0

/-- The reference counters after the traversal: start from the seeded
counters and the stack holding the root inode (index 1), and run the scan. -/
def traversalRefs (fs : FSImage) (fuel : Nat) : Nat → Nat :=
  (scan_directory_entries fs fuel ([1], initialRefs)).2

/-- The body of the verification loop of `validate_directory_rules` at one
inode index (checks 9–12, in this order, each exiting on failure). -/
def checkIdx (fs : FSImage) (refs : Nat → Nat) (idx : Nat) :
    Except String Unit :=
  let ino := fs.inode idx
  if ino.itype ≠ 0 ∧ refs idx = 0 then
    Except.error "inode marked use but not found in a directory."
  else if 0 < refs idx ∧ ino.itype = 0 then
    Except.error "inode referred to in directory but marked free."
  else if ino.itype = 2 ∧ ino.nlink ≠ (refs idx : Int) then
    Except.error "bad reference count for file."
  else if ino.itype = 1 ∧ 1 < refs idx then
    Except.error "directory appears more than once in file system."
  else Except.ok ()

/-- The verification loop of `validate_directory_rules`: inode indices
`2, …, ninodes-1` in ascending order, first error wins. -/
def dirRules (fs : FSImage) (refs : Nat → Nat) : Except String Unit :=
  firstErr (checkIdx fs refs) (List.range' 2 (fs.sb.ninodes - 2))

/-- `validate_directory_rules` (checks 9–12): seed the counters, run the
traversal from the root, then run the verification loop. -/
def validate_directory_rules (fs : FSImage) (fuel : Nat) : Except String Unit :=
  dirRules fs (traversalRefs fs fuel)

/-- `main`'s check sequence: the four validator passes in order, the first
error terminating the run (`ERROR: <message>` on stderr, exit 1). -/
def checker (fs : FSImage) (fuel : Nat) : Except String Unit := do
  validate_inodes fs
  verify_bitmap_usage fs
  validate_block_address_uniqueness fs
  validate_directory_rules fs fuel

/-- The edge relation of the traversal's directory graph:
`childEdge fs i j` holds when popping `i` pushes `j`. -/
def childEdge (fs : FSImage) (i j : Nat) : Prop := j ∈ childrenOf fs i

/-- Termination of the reference-count traversal: some number of loop
iterations empties the stack. -/
def ScanTerminates (fs : FSImage) : Prop :=
  ∃ n, (scan_directory_entries fs n ([1], initialRefs)).1 = []

/-- The four per-index conditions of checks 9–12 all absent at `idx`
(stated from the spec's wording of §4.5's after-traversal rules). -/
def cleanIdx (fs : FSImage) (refs : Nat → Nat) (idx : Nat) : Prop :=
  ¬((fs.inode idx).itype ≠ 0 ∧ refs idx = 0) ∧
  ¬(0 < refs idx ∧ (fs.inode idx).itype = 0) ∧
  ¬((fs.inode idx).itype = 2 ∧ (fs.inode idx).nlink ≠ (refs idx : Int)) ∧
  ¬((fs.inode idx).itype = 1 ∧ 1 < refs idx)

instance : DecidableEq (Except String Unit) := fun a b =>
  match a, b with
  | Except.ok u, Except.ok v =>
    isTrue (by cases u; cases v; rfl)
  | Except.error e1, Except.error e2 =>
    if h : e1 = e2 then isTrue (by rw [h]) else
      isFalse (fun hh => h (Except.error.inj hh))
  | Except.ok _, Except.error _ => isFalse (fun hh => by cases hh)
  | Except.error _, Except.ok _ => isFalse (fun hh => by cases hh)

/-- Modelled from the spec: the thirteen violation message texts of §6, in
their fixed order. -/
def specMessages : List String :=
  ["bad inode.", "bad direct address in inode.", "bad indirect address in inode.",
   "root directory does not exist.", "directory not properly formatted.",
   "address used by inode but marked free in bitmap.",
   "bitmap marks block in use but it is not in use.",
   "direct address used more than once.", "indirect address used more than once.",
   "inode marked use but not found in a directory.",
   "inode referred to in directory but marked free.",
   "bad reference count for file.",
   "directory appears more than once in file system."]

/-! Concrete images used for counterexamples, failing inputs and witnesses.
All of them use the geometry `size = 64`, `nblocks = 59`, `ninodes = 4`,
for which `startingBlock = (4/8 + 1) + (64/4096 + 1) + 2 = 4`. -/

/-- The all-zero address array. -/
def zeroAddrs : Nat → Nat := fun _ => 0

/-- An address array with only slot 0 set. -/
def onlyAddr0 (a : Nat) : Nat → Nat := fun d => if d = 0 then a else 0

/-- A free inode record. -/
def freeInode : Dinode := ⟨0, 0, zeroAddrs⟩

/-- An unused directory-entry slot. -/
def blankDirent : Dirent := ⟨0, ""⟩

/-- An image whose blocks read as indirect blocks are all zero. -/
def noIndirect : Nat → Nat → Nat := fun _ _ => 0

/-- Directory-entry view with a well-formed root block at block 6:
`.` and `..` both with inode number 1, all other slots unused. -/
def dotsAt6 : Nat → Nat → Dirent := fun b e =>
  if b = 6 ∧ e = 0 then ⟨1, "."⟩
  else if b = 6 ∧ e = 1 then ⟨1, ".."⟩
  else blankDirent

/-- The shared small superblock. -/
def sbSmall : Superblock := ⟨64, 59, 4⟩

/-- C1's input: inode 1 is in use with the invalid type 7 (not a
directory). -/
def fsC1 : FSImage :=
  ⟨sbSmall,
   fun i => if i = 1 then ⟨7, 0, zeroAddrs⟩ else freeInode,
   fun _ => false, noIndirect, fun _ _ => blankDirent⟩

/-- C2's input: the root's first directory entry is named `.` but carries
inode number 2. -/
def fsC2 : FSImage :=
  ⟨sbSmall,
   fun i => if i = 1 then ⟨1, 1, onlyAddr0 6⟩ else freeInode,
   fun a => a == 6, noIndirect,
   fun b e => if b = 6 ∧ e = 0 then ⟨2, "."⟩ else blankDirent⟩

/-- C3's input: inode 2 (a file) uses block 8 whose bitmap bit is clear,
and inode 3 has the invalid type 7. -/
def fsC3 : FSImage :=
  ⟨sbSmall,
   fun i =>
     if i = 1 then ⟨1, 1, onlyAddr0 6⟩
     else if i = 2 then ⟨2, 1, onlyAddr0 8⟩
     else if i = 3 then ⟨7, 0, zeroAddrs⟩
     else freeInode,
   fun a => a == 6, noIndirect, dotsAt6⟩

/-- C4's input: the only in-use inode is a well-formed root whose indirect
slot is zero, while block 0 (read as an indirect block) contains the word 5
and bitmap bit 5 is clear. -/
def fsC4 : FSImage :=
  ⟨sbSmall,
   fun i => if i = 1 then ⟨1, 1, onlyAddr0 6⟩ else freeInode,
   fun a => a == 6,
   fun b k => if b = 0 ∧ k = 0 then 5 else 0,
   dotsAt6⟩

/-- C5's input: block 6 is used as a direct address by both the root and
inode 2 (direct counter 2 at block index 2), and block 5 appears twice
inside the root's indirect block 7 (indirect counter 2 at block index 1). -/
def fsC5 : FSImage :=
  ⟨sbSmall,
   fun i =>
     if i = 1 then ⟨1, 1, fun d => if d = 0 then 6 else if d = 12 then 7 else 0⟩
     else if i = 2 then ⟨2, 1, onlyAddr0 6⟩
     else freeInode,
   fun a => a == 5 || a == 6 || a == 7,
   fun b k => if b = 7 ∧ (k = 0 ∨ k = 1) then 5 else 0,
   dotsAt6⟩

/-- C9's input: the root directory contains the entry `x` with inode
number 7, although the superblock declares only 4 inodes. -/
def fsC9 : FSImage :=
  ⟨sbSmall,
   fun i => if i = 1 then ⟨1, 1, onlyAddr0 6⟩ else freeInode,
   fun a => a == 6, noIndirect,
   fun b e =>
     if b = 6 ∧ e = 0 then ⟨1, "."⟩
     else if b = 6 ∧ e = 1 then ⟨1, ".."⟩
     else if b = 6 ∧ e = 2 then ⟨7, "x"⟩
     else blankDirent⟩

/-- C10's input: inode 2 (a file) uses block address 1 — in range and
marked allocated, but below the data-region start 4. -/
def fsC10 : FSImage :=
  ⟨sbSmall,
   fun i =>
     if i = 1 then ⟨1, 1, onlyAddr0 6⟩
     else if i = 2 then ⟨2, 1, onlyAddr0 1⟩
     else freeInode,
   fun a => a == 6 || a == 1, noIndirect, dotsAt6⟩

/-- C8's cyclic input: the root directory's block carries the entry
`a` with inode number 1, a directory cycle at the root itself. -/
def fsCyc : FSImage :=
  ⟨sbSmall,
   fun i => if i = 1 then ⟨1, 1, onlyAddr0 6⟩ else freeInode,
   fun a => a == 6, noIndirect,
   fun b e =>
     if b = 6 ∧ e = 0 then ⟨1, "."⟩
     else if b = 6 ∧ e = 1 then ⟨1, ".."⟩
     else if b = 6 ∧ e = 2 then ⟨1, "a"⟩
     else blankDirent⟩

/-- C1's witness input: inode 1 is in use with the legal non-directory
type 2 (regular file) and all-zero addresses. -/
def fsW1 : FSImage :=
  ⟨sbSmall,
   fun i => if i = 1 then ⟨2, 0, zeroAddrs⟩ else freeInode,
   fun _ => false, noIndirect, fun _ _ => blankDirent⟩

/-! ## Loop characterizations -/

theorem firstErr_ok_iff (f : Nat → Except String Unit) (l : List Nat) :
    firstErr f l = Except.ok () ↔ ∀ i ∈ l, f i = Except.ok () := by
  induction l with
  | nil => simp [firstErr]
  | cons i rest ih =>
    cases hf : f i with
    | ok u =>
      cases u
      simp [firstErr, hf, ih]
    | error e =>
      simp only [firstErr, hf]
      constructor
      · intro h; cases h
      · intro h
        have hi := h i (by simp)
        rw [hf] at hi; cases hi

theorem firstErr_error_range'_iff (f : Nat → Except String Unit) (e : String) :
    ∀ n s : Nat, firstErr f (List.range' s n) = Except.error e ↔
      ∃ i, s ≤ i ∧ i < s + n ∧ f i = Except.error e ∧
        ∀ j, s ≤ j → j < i → f j = Except.ok () := by
  intro n
  induction n with
  | zero =>
    intro s
    constructor
    · intro h; cases h
    · rintro ⟨i, h1, h2, _, _⟩; omega
  | succ n ih =>
    intro s
    rw [List.range'_succ]
    cases hf : f s with
    | ok u =>
      cases u
      have hstep : firstErr f (s :: List.range' (s + 1) n) =
          firstErr f (List.range' (s + 1) n) := by simp [firstErr, hf]
      rw [hstep, ih (s + 1)]
      constructor
      · rintro ⟨i, h1, h2, h3, h4⟩
        refine ⟨i, by omega, by omega, h3, fun j hj1 hj2 => ?_⟩
        rcases Nat.lt_or_ge j (s + 1) with hj | hj
        · have hjs : j = s := by omega
          rw [hjs]; exact hf
        · exact h4 j hj hj2
      · rintro ⟨i, h1, h2, h3, h4⟩
        have his : i ≠ s := by
          intro hh; rw [hh, hf] at h3; cases h3
        exact ⟨i, by omega, by omega, h3, fun j hj1 hj2 => h4 j (by omega) hj2⟩
    | error e2 =>
      have hstep : firstErr f (s :: List.range' (s + 1) n) = Except.error e2 := by
        simp [firstErr, hf]
      rw [hstep]
      constructor
      · intro h
        have he : e2 = e := Except.error.inj h
        exact ⟨s, Nat.le_refl s, by omega, by rw [hf, he], fun j hj1 hj2 => by omega⟩
      · rintro ⟨i, h1, h2, h3, h4⟩
        rcases Nat.eq_or_lt_of_le h1 with hh | hh
        · rw [← hh, hf] at h3
          rw [Except.error.inj h3]
        · have := h4 s (Nat.le_refl s) hh
          rw [hf] at this; cases this

theorem firstErr_ok_range'_iff (f : Nat → Except String Unit) (s n : Nat) :
    firstErr f (List.range' s n) = Except.ok () ↔
      ∀ i, s ≤ i → i < s + n → f i = Except.ok () := by
  rw [firstErr_ok_iff]
  constructor
  · intro h i h1 h2; exact h i (List.mem_range'_1.mpr ⟨h1, h2⟩)
  · intro h i hi
    obtain ⟨h1, h2⟩ := List.mem_range'_1.mp hi
    exact h i h1 h2

/-! ## Step-function characterizations -/

theorem checkIdx_eq_ok_iff (fs : FSImage) (refs : Nat → Nat) (idx : Nat) :
    checkIdx fs refs idx = Except.ok () ↔ cleanIdx fs refs idx := by
  unfold checkIdx cleanIdx
  dsimp only
  split_ifs with h1 h2 h3 h4 <;> simp_all

theorem checkIdx_eq_M9_iff (fs : FSImage) (refs : Nat → Nat) (idx : Nat) :
    checkIdx fs refs idx =
        Except.error "inode marked use but not found in a directory." ↔
      (fs.inode idx).itype ≠ 0 ∧ refs idx = 0 := by
  have hA : ("inode referred to in directory but marked free." : String) ≠
      "inode marked use but not found in a directory." := by decide
  have hB : ("bad reference count for file." : String) ≠
      "inode marked use but not found in a directory." := by decide
  have hC : ("directory appears more than once in file system." : String) ≠
      "inode marked use but not found in a directory." := by decide
  unfold checkIdx
  dsimp only
  split_ifs with h1 h2 h3 h4 <;> simp_all

theorem checkIdx_eq_M10_iff (fs : FSImage) (refs : Nat → Nat) (idx : Nat) :
    checkIdx fs refs idx =
        Except.error "inode referred to in directory but marked free." ↔
      0 < refs idx ∧ (fs.inode idx).itype = 0 := by
  have hA : ("inode marked use but not found in a directory." : String) ≠
      "inode referred to in directory but marked free." := by decide
  have hB : ("bad reference count for file." : String) ≠
      "inode referred to in directory but marked free." := by decide
  have hC : ("directory appears more than once in file system." : String) ≠
      "inode referred to in directory but marked free." := by decide
  unfold checkIdx
  dsimp only
  split_ifs with h1 h2 h3 h4 <;> simp_all

theorem checkIdx_eq_M11_iff (fs : FSImage) (refs : Nat → Nat) (idx : Nat) :
    checkIdx fs refs idx = Except.error "bad reference count for file." ↔
      (fs.inode idx).itype = 2 ∧ refs idx ≠ 0 ∧
        (fs.inode idx).nlink ≠ (refs idx : Int) := by
  have hA : ("inode marked use but not found in a directory." : String) ≠
      "bad reference count for file." := by decide
  have hB : ("inode referred to in directory but marked free." : String) ≠
      "bad reference count for file." := by decide
  have hC : ("directory appears more than once in file system." : String) ≠
      "bad reference count for file." := by decide
  unfold checkIdx
  dsimp only
  split_ifs with h1 h2 h3 h4 <;> simp_all

theorem checkIdx_eq_M12_iff (fs : FSImage) (refs : Nat → Nat) (idx : Nat) :
    checkIdx fs refs idx =
        Except.error "directory appears more than once in file system." ↔
      (fs.inode idx).itype = 1 ∧ 1 < refs idx := by
  have hA : ("inode marked use but not found in a directory." : String) ≠
      "directory appears more than once in file system." := by decide
  have hB : ("inode referred to in directory but marked free." : String) ≠
      "directory appears more than once in file system." := by decide
  have hC : ("bad reference count for file." : String) ≠
      "directory appears more than once in file system." := by decide
  unfold checkIdx
  dsimp only
  split_ifs with h1 h2 h3 h4 <;> simp_all

theorem uniqCheckAt_eq_ok_iff (fs : FSImage) (b : Nat) :
    uniqCheckAt fs b = Except.ok () ↔
      directCountAt fs (b : Int) ≤ 1 ∧ indirectCountAt fs (b : Int) ≤ 1 := by
  unfold uniqCheckAt
  split_ifs with h1 h2 <;> simp_all

theorem uniqCheckAt_eq_D_iff (fs : FSImage) (b : Nat) :
    uniqCheckAt fs b = Except.error "direct address used more than once." ↔
      1 < directCountAt fs (b : Int) := by
  have hA : ("indirect address used more than once." : String) ≠
      "direct address used more than once." := by decide
  unfold uniqCheckAt
  split_ifs with h1 h2 <;> simp_all
theorem uniqCheckAt_eq_I_iff (fs : FSImage) (b : Nat) :
    uniqCheckAt fs b = Except.error "indirect address used more than once." ↔
      directCountAt fs (b : Int) ≤ 1 ∧ 1 < indirectCountAt fs (b : Int) := by
  have hA : ("direct address used more than once." : String) ≠
      "indirect address used more than once." := by decide
  unfold uniqCheckAt
  split_ifs with h1 h2 <;> simp_all

theorem ok_bind (f : Unit → Except String Unit) :
    (Except.ok () : Except String Unit) >>= f = f () := rfl

theorem error_bind (e : String) (f : Unit → Except String Unit) :
    (Except.error e : Except String Unit) >>= f = Except.error e := rfl

theorem validate_inodes_error_iff (fs : FSImage) (e : String) :
    validate_inodes fs = Except.error e ↔
      ∃ i, i < fs.sb.ninodes ∧ processInode fs i = Except.error e ∧
        ∀ j, j < i → processInode fs j = Except.ok () := by
  unfold validate_inodes
  rw [firstErr_error_range'_iff]
  constructor
  · rintro ⟨i, _, h2, h3, h4⟩
    exact ⟨i, by omega, h3, fun j hj => h4 j (by omega) hj⟩
  · rintro ⟨i, h2, h3, h4⟩
    exact ⟨i, by omega, by omega, h3, fun j _ hj => h4 j hj⟩

theorem uniq_error_iff (fs : FSImage) (e : String) :
    validate_block_address_uniqueness fs = Except.error e ↔
      ∃ b, b < fs.sb.nblocks ∧ uniqCheckAt fs b = Except.error e ∧
        ∀ b2, b2 < b → uniqCheckAt fs b2 = Except.ok () := by
  unfold validate_block_address_uniqueness
  rw [firstErr_error_range'_iff]
  constructor
  · rintro ⟨b, _, h2, h3, h4⟩
    exact ⟨b, by omega, h3, fun b2 hb2 => h4 b2 (by omega) hb2⟩
  · rintro ⟨b, h2, h3, h4⟩
    exact ⟨b, by omega, by omega, h3, fun b2 _ hb2 => h4 b2 hb2⟩

theorem dirRules_error_iff (fs : FSImage) (refs : Nat → Nat) (e : String) :
    dirRules fs refs = Except.error e ↔
      ∃ i, 2 ≤ i ∧ i < fs.sb.ninodes ∧ checkIdx fs refs i = Except.error e ∧
        ∀ j, 2 ≤ j → j < i → checkIdx fs refs j = Except.ok () := by
  unfold dirRules
  rw [firstErr_error_range'_iff]
  constructor
  · rintro ⟨i, h1, h2, h3, h4⟩
    exact ⟨i, h1, by omega, h3, h4⟩
  · rintro ⟨i, h1, h2, h3, h4⟩
    exact ⟨i, h1, by omega, h3, h4⟩

theorem dirRules_ok_iff (fs : FSImage) (refs : Nat → Nat) :
    dirRules fs refs = Except.ok () ↔
      ∀ i, 2 ≤ i → i < fs.sb.ninodes → cleanIdx fs refs i := by
  unfold dirRules
  rw [firstErr_ok_range'_iff]
  constructor
  · intro h i h1 h2
    exact (checkIdx_eq_ok_iff fs refs i).mp (h i h1 (by omega))
  · intro h i h1 h2
    exact (checkIdx_eq_ok_iff fs refs i).mpr (h i h1 (by omega))

theorem dirRules_error_cond_iff (fs : FSImage) (refs : Nat → Nat) (e : String)
    (P : Nat → Prop) (hP : ∀ i, checkIdx fs refs i = Except.error e ↔ P i) :
    dirRules fs refs = Except.error e ↔
      ∃ i, 2 ≤ i ∧ i < fs.sb.ninodes ∧ P i ∧
        ∀ j, 2 ≤ j → j < i → cleanIdx fs refs j := by
  rw [dirRules_error_iff]
  constructor
  · rintro ⟨i, h1, h2, h3, h4⟩
    exact ⟨i, h1, h2, (hP i).mp h3,
      fun j ja jb => (checkIdx_eq_ok_iff fs refs j).mp (h4 j ja jb)⟩
  · rintro ⟨i, h1, h2, h3, h4⟩
    exact ⟨i, h1, h2, (hP i).mpr h3,
      fun j ja jb => (checkIdx_eq_ok_iff fs refs j).mpr (h4 j ja jb)⟩

/-! ## The traversal's directory graph -/

theorem mem_entryInums_lt (fs : FSImage)
    (hb : ∀ b e, (fs.direntAt b e).inum < 65536) :
    ∀ b j, j ∈ entryInums fs b → j < 65536 := by
  intro b j hj
  unfold entryInums at hj
  obtain ⟨e, he, hsome⟩ := List.mem_filterMap.mp hj
  dsimp only at hsome
  split at hsome
  · cases hsome; exact hb b e
  · cases hsome

theorem mem_childrenOf_lt (fs : FSImage)
    (hb : ∀ b e, (fs.direntAt b e).inum < 65536) :
    ∀ i j, j ∈ childrenOf fs i → j < 65536 := by
  intro i j hj
  unfold childrenOf at hj
  dsimp only at hj
  split at hj
  · cases hj
  · rcases List.mem_append.mp hj with h | h
    · obtain ⟨b, _, hjb⟩ := List.mem_flatMap.mp h
      exact mem_entryInums_lt fs hb b j hjb
    · split at h
      · cases h
      · obtain ⟨b, _, hjb⟩ := List.mem_flatMap.mp h
        exact mem_entryInums_lt fs hb b j hjb

theorem acc_childEdge (fs : FSImage)
    (hb : ∀ b e, (fs.direntAt b e).inum < 65536)
    (hacyc : ∀ i, ¬ Relation.TransGen (childEdge fs) i i) :
    ∀ i, Acc (fun j i2 => childEdge fs i2 j) i := by
  haveI htrans : IsTrans (Fin 65536)
      (fun a b => Relation.TransGen (childEdge fs) (b : Nat) (a : Nat)) :=
    ⟨fun a b c hab hbc => Relation.TransGen.trans hbc hab⟩
  haveI hirr : IsIrrefl (Fin 65536)
      (fun a b => Relation.TransGen (childEdge fs) (b : Nat) (a : Nat)) :=
    ⟨fun a ha => hacyc (a : Nat) ha⟩
  have hwf : WellFounded
      (fun a b : Fin 65536 => Relation.TransGen (childEdge fs) (b : Nat) (a : Nat)) :=
    Finite.wellFounded_of_trans_of_irrefl _
  have key : ∀ a : Fin 65536, Acc (fun j i2 => childEdge fs i2 j) (a : Nat) := by
    intro a
    induction (hwf.apply a) with
    | intro x hx ih =>
      refine Acc.intro _ (fun j hj => ?_)
      have hjlt : j < 65536 := mem_childrenOf_lt fs hb _ j hj
      exact ih ⟨j, hjlt⟩ (Relation.TransGen.single hj)
  intro i
  refine Acc.intro _ (fun j hj => ?_)
  exact key ⟨j, mem_childrenOf_lt fs hb i j hj⟩

theorem scan_halts_cons (fs : FSImage) :
    ∀ i, Acc (fun j i2 => childEdge fs i2 j) i →
      ∀ s : List Nat,
        (∀ r : Nat → Nat, ∃ n, (scan_directory_entries fs n (s, r)).1 = []) →
        ∀ r : Nat → Nat, ∃ n, (scan_directory_entries fs n (i :: s, r)).1 = [] := by
  intro i hacc
  induction hacc with
  | intro x hx ih =>
    intro s hs r
    have hlist : ∀ l : List Nat, (∀ j ∈ l, childEdge fs x j) →
        ∀ s2 : List Nat,
          (∀ r2 : Nat → Nat, ∃ n, (scan_directory_entries fs n (s2, r2)).1 = []) →
          ∀ r2 : Nat → Nat,
            ∃ n, (scan_directory_entries fs n (l ++ s2, r2)).1 = [] := by
      intro l
      induction l with
      | nil => intro _ s2 hs2 r2; simpa using hs2 r2
      | cons j l2 ihl =>
        intro hjl s2 hs2 r2
        have h2 : ∀ r3 : Nat → Nat,
            ∃ n, (scan_directory_entries fs n (l2 ++ s2, r3)).1 = [] :=
          ihl (fun k hk => hjl k (List.mem_cons_of_mem j hk)) s2 hs2
        have h3 := ih j (hjl j (List.mem_cons_self j l2)) (l2 ++ s2) h2 r2
        simpa using h3
    obtain ⟨n, hn⟩ :=
      hlist (childrenOf fs x).reverse (fun j hj => List.mem_reverse.mp hj) s hs
        (fun j => r j + (childrenOf fs x).count j)
    exact ⟨n + 1, hn⟩

theorem scan_halts_of_acc (fs : FSImage) :
    ∀ s : List Nat, (∀ i ∈ s, Acc (fun j i2 => childEdge fs i2 j) i) →
      ∀ r : Nat → Nat, ∃ n, (scan_directory_entries fs n (s, r)).1 = [] := by
  intro s
  induction s with
  | nil => intro _ r; exact ⟨0, rfl⟩
  | cons i t ih =>
    intro h r
    exact scan_halts_cons fs i (h i (List.mem_cons_self i t)) t
      (ih (fun j hj => h j (List.mem_cons_of_mem i hj))) r

theorem scan_cycle_inv (fs : FSImage) :
    ∀ (n : Nat) (s : List Nat) (r : Nat → Nat),
      (∃ i ∈ s, ∃ c, Relation.ReflTransGen (childEdge fs) i c ∧
          Relation.TransGen (childEdge fs) c c) →
      ∃ i ∈ (scan_directory_entries fs n (s, r)).1, ∃ c,
        Relation.ReflTransGen (childEdge fs) i c ∧
          Relation.TransGen (childEdge fs) c c := by
  intro n
  induction n with
  | zero => intro s r h; exact h
  | succ n ih =>
    intro s r h
    obtain ⟨i, his, c, hic, hcc⟩ := h
    cases s with
    | nil => cases his
    | cons x t =>
      apply ih
      rcases List.mem_cons.mp his with hxi | hit
      · subst hxi
        rcases Relation.ReflTransGen.cases_head hic with heq | ⟨j, hij, hjc⟩
        · obtain ⟨j, hij, hjc⟩ := Relation.TransGen.head'_iff.mp (heq ▸ hcc)
          exact ⟨j, List.mem_append_left _ (List.mem_reverse.mpr hij), c,
            heq ▸ hjc, hcc⟩
        · exact ⟨j, List.mem_append_left _ (List.mem_reverse.mpr hij), c, hjc, hcc⟩
      · exact ⟨i, List.mem_append_right _ hit, c, hic, hcc⟩

/-! ## Claim theorems -/

/-- Claim C1, counterexample.  The claim says that whenever inode 1 is in
use and its type is not Directory the checker fails with
`root directory does not exist.` and no other message.  On `fsC1`
(inode 1 in use with type 7, not Directory) the checker instead fails with
`bad inode.`: the type-legality check of `validate_inodes` runs before the
root-specific test. -/
theorem fcheck_C1_counterexample :
    (fsC1.inode 1).itype ≠ 0 ∧ (fsC1.inode 1).itype ≠ 1 ∧
    checker fsC1 0 = Except.error "bad inode." ∧
    "bad inode." ≠ "root directory does not exist." :=
  ⟨by decide, by decide, rfl, by decide⟩

/-- Claim C1 (amended): if inode 1 is in use, passes the inode-type check
(its type is one of Directory, RegularFile, Device) and the block-address
checks, and its type is not Directory, then the per-inode validation of
inode 1 fails with `root directory does not exist.`. -/
theorem fcheck_C1 (fs : FSImage)
    (h0 : (fs.inode 1).itype ≠ 0) (h1 : (fs.inode 1).itype ≠ 1)
    (hty : validate_inode_type (fs.inode 1) = Except.ok ())
    (haddr : validate_block_addresses fs (fs.inode 1) = Except.ok ()) :
    processInode fs 1 = Except.error "root directory does not exist." := by
  unfold processInode
  dsimp only
  rw [if_neg h0, hty, ok_bind, haddr, ok_bind]
  have h11 : (1 : Nat) = 1 := rfl
  rw [if_pos h11, if_pos h1]
  rfl

/-- Claim C1, witness for the amended theorem: inode 1 of `fsW1` is a
regular file with all-zero addresses. -/
theorem fcheck_C1_witness :
    processInode fsW1 1 = Except.error "root directory does not exist." :=
  fcheck_C1 fsW1 (by decide) (by decide) rfl rfl

/-- Claim C2 (code bug).  On `fsC2` the root's `.` entry carries inode
number 2, and the checker emits `directory not properly formatted` —
without the trailing period, a text that is not among the thirteen §6
messages, contradicting the claim's (and §6's) exact-message contract. -/
theorem fcheck_C2 :
    checker fsC2 0 = Except.error "directory not properly formatted" ∧
    specMessages.contains "directory not properly formatted" = false ∧
    "directory not properly formatted" ≠ "directory not properly formatted." :=
  ⟨rfl, by decide, by decide⟩

/-- Claim C3, counterexample.  `fsC3` contains both a `bad inode.`
violation (inode 3 has type 7) and an
`address used by inode but marked free in bitmap.` violation (inode 2 uses
block 8 whose bitmap bit is clear).  `bad inode.` comes first in the §6
order, yet the checker reports the bitmap message, because inode 2 is
scanned before inode 3. -/
theorem fcheck_C3_counterexample :
    checker fsC3 0 = Except.error "address used by inode but marked free in bitmap." ∧
    (fsC3.inode 3).itype = 7 ∧
    validate_inode_type (fsC3.inode 3) = Except.error "bad inode." ∧
    "address used by inode but marked free in bitmap." ≠ "bad inode." :=
  ⟨rfl, rfl, rfl, by decide⟩

/-- Claim C3 (amended): the reported message is that of the first failing
scan point, not of the globally earliest §6 check: `validate_inodes` reports
the error of the least inode index whose per-inode checks fail (the §6
order applies within one inode), and the uniqueness pass reports the error
of the least block index with a duplicate, direct checked before indirect
at each index. -/
theorem fcheck_C3 (fs : FSImage) (e : String) :
    (validate_inodes fs = Except.error e ↔
      ∃ i, i < fs.sb.ninodes ∧ processInode fs i = Except.error e ∧
        ∀ j, j < i → processInode fs j = Except.ok ()) ∧
    (validate_block_address_uniqueness fs = Except.error e ↔
      ∃ b, b < fs.sb.nblocks ∧ uniqCheckAt fs b = Except.error e ∧
        ∀ b2, b2 < b → uniqCheckAt fs b2 = Except.ok ()) :=
  ⟨validate_inodes_error_iff fs e, uniq_error_iff fs e⟩

/-- Claim C3, witness for the amended theorem, instantiated on `fsC3`:
inode 2 is the least failing inode index. -/
theorem fcheck_C3_witness :
    validate_inodes fsC3 =
      Except.error "address used by inode but marked free in bitmap." :=
  (fcheck_C3 fsC3 "address used by inode but marked free in bitmap.").1.mpr
    ⟨2, by decide, rfl, fun j hj => by interval_cases j <;> rfl⟩

/-- Claim C4 (code bug).  On `fsC4` the only in-use inode (the root) has a
zero indirect slot and every non-zero address it uses has its bitmap bit
set; the claim therefore says `address used by inode but marked free in
bitmap.` cannot be emitted.  The checker emits it anyway:
`validate_bitmap_addr` scans block 0 as an indirect block even when the
indirect slot is zero, and block 0 contains the word 5 whose bit is clear. -/
theorem fcheck_C4 :
    checker fsC4 0 =
      Except.error "address used by inode but marked free in bitmap." ∧
    (fsC4.inode 1).addrs NDIRECT = 0 ∧
    ((List.range' 0 (NDIRECT + 1)).all
      (fun d => (fsC4.inode 1).addrs d == 0 ||
        fsC4.bitmap ((fsC4.inode 1).addrs d)) = true) ∧
    ((List.range' 0 fsC4.sb.ninodes).all
      (fun i => i == 1 || (fsC4.inode i).itype == 0) = true) :=
  ⟨rfl, rfl, by decide, by decide⟩

/-- Claim C5, counterexample.  On `fsC5` (which passes the first two
validator passes) block index 2 has direct counter 2, so the claim says the
checker fails with `direct address used more than once.`; it fails with
`indirect address used more than once.` instead, because block index 1
already has indirect counter 2 and the verification loop scans indices in
ascending order. -/
theorem fcheck_C5_counterexample :
    checker fsC5 0 = Except.error "indirect address used more than once." ∧
    1 < directCountAt fsC5 2 ∧
    "indirect address used more than once." ≠
      "direct address used more than once." :=
  ⟨rfl, by decide, by decide⟩

/-- Claim C5 (amended): the uniqueness pass succeeds exactly when no block
index has a direct or indirect counter above 1 (so a block used once
directly and once indirectly triggers nothing); it fails with
`direct address used more than once.` exactly when, at the least offending
block index, the direct counter exceeds 1, and with
`indirect address used more than once.` exactly when at that least
offending index only the indirect counter exceeds 1. -/
theorem fcheck_C5 (fs : FSImage) :
    (validate_block_address_uniqueness fs = Except.ok () ↔
      ∀ b, b < fs.sb.nblocks →
        directCountAt fs (b : Int) ≤ 1 ∧ indirectCountAt fs (b : Int) ≤ 1) ∧
    (validate_block_address_uniqueness fs =
        Except.error "direct address used more than once." ↔
      ∃ b, b < fs.sb.nblocks ∧ 1 < directCountAt fs (b : Int) ∧
        ∀ b2, b2 < b →
          directCountAt fs (b2 : Int) ≤ 1 ∧ indirectCountAt fs (b2 : Int) ≤ 1) ∧
    (validate_block_address_uniqueness fs =
        Except.error "indirect address used more than once." ↔
      ∃ b, b < fs.sb.nblocks ∧ directCountAt fs (b : Int) ≤ 1 ∧
        1 < indirectCountAt fs (b : Int) ∧
        ∀ b2, b2 < b →
          directCountAt fs (b2 : Int) ≤ 1 ∧ indirectCountAt fs (b2 : Int) ≤ 1) := by
  refine ⟨?_, ?_, ?_⟩
  · unfold validate_block_address_uniqueness
    rw [firstErr_ok_range'_iff]
    constructor
    · intro h b hb
      exact (uniqCheckAt_eq_ok_iff fs b).mp (h b (by omega) (by omega))
    · intro h b _ hb
      exact (uniqCheckAt_eq_ok_iff fs b).mpr (h b (by omega))
  · rw [uniq_error_iff]
    constructor
    · rintro ⟨b, h1, h2, h3⟩
      exact ⟨b, h1, (uniqCheckAt_eq_D_iff fs b).mp h2,
        fun b2 hb2 => (uniqCheckAt_eq_ok_iff fs b2).mp (h3 b2 hb2)⟩
    · rintro ⟨b, h1, h2, h3⟩
      exact ⟨b, h1, (uniqCheckAt_eq_D_iff fs b).mpr h2,
        fun b2 hb2 => (uniqCheckAt_eq_ok_iff fs b2).mpr (h3 b2 hb2)⟩
  · rw [uniq_error_iff]
    constructor
    · rintro ⟨b, h1, h2, h3⟩
      obtain ⟨hd, hi⟩ := (uniqCheckAt_eq_I_iff fs b).mp h2
      exact ⟨b, h1, hd, hi,
        fun b2 hb2 => (uniqCheckAt_eq_ok_iff fs b2).mp (h3 b2 hb2)⟩
    · rintro ⟨b, h1, hd, hi, h3⟩
      exact ⟨b, h1, (uniqCheckAt_eq_I_iff fs b).mpr ⟨hd, hi⟩,
        fun b2 hb2 => (uniqCheckAt_eq_ok_iff fs b2).mpr (h3 b2 hb2)⟩

/-- Claim C5, witness for the amended theorem, instantiated on `fsC5`:
block index 1 is the least offending index and only its indirect counter
exceeds 1. -/
theorem fcheck_C5_witness :
    validate_block_address_uniqueness fsC5 =
      Except.error "indirect address used more than once." :=
  (fcheck_C5 fsC5).2.2.mpr
    ⟨1, by decide, by decide, by decide,
      fun b2 hb2 => by interval_cases b2; exact ⟨by decide, by decide⟩⟩

/-- Claim C6: with the reference counters pre-seeded to 1 for inodes 0
and 1 and then accumulated by the root-based traversal,
`validate_directory_rules` applies, for every inode index from 2 up to the
inode count in ascending order and in this order within each index: in-use
type with count 0 (`inode marked use but not found in a directory.`),
positive count with free type (`inode referred to in directory but marked
free.`), regular file with link count different from the count
(`bad reference count for file.`), directory with count above 1
(`directory appears more than once in file system.`); the first violation
in this scan order is the one reported. -/
theorem fcheck_C6 (fs : FSImage) (fuel : Nat) :
    (validate_directory_rules fs fuel = Except.ok () ↔
      ∀ i, 2 ≤ i → i < fs.sb.ninodes → cleanIdx fs (traversalRefs fs fuel) i) ∧
    (validate_directory_rules fs fuel =
        Except.error "inode marked use but not found in a directory." ↔
      ∃ i, 2 ≤ i ∧ i < fs.sb.ninodes ∧
        ((fs.inode i).itype ≠ 0 ∧ traversalRefs fs fuel i = 0) ∧
        ∀ j, 2 ≤ j → j < i → cleanIdx fs (traversalRefs fs fuel) j) ∧
    (validate_directory_rules fs fuel =
        Except.error "inode referred to in directory but marked free." ↔
      ∃ i, 2 ≤ i ∧ i < fs.sb.ninodes ∧
        (0 < traversalRefs fs fuel i ∧ (fs.inode i).itype = 0) ∧
        ∀ j, 2 ≤ j → j < i → cleanIdx fs (traversalRefs fs fuel) j) ∧
    (validate_directory_rules fs fuel =
        Except.error "bad reference count for file." ↔
      ∃ i, 2 ≤ i ∧ i < fs.sb.ninodes ∧
        ((fs.inode i).itype = 2 ∧ traversalRefs fs fuel i ≠ 0 ∧
          (fs.inode i).nlink ≠ (traversalRefs fs fuel i : Int)) ∧
        ∀ j, 2 ≤ j → j < i → cleanIdx fs (traversalRefs fs fuel) j) ∧
    (validate_directory_rules fs fuel =
        Except.error "directory appears more than once in file system." ↔
      ∃ i, 2 ≤ i ∧ i < fs.sb.ninodes ∧
        ((fs.inode i).itype = 1 ∧ 1 < traversalRefs fs fuel i) ∧
        ∀ j, 2 ≤ j → j < i → cleanIdx fs (traversalRefs fs fuel) j) := by
  refine ⟨?_, ?_, ?_, ?_, ?_⟩
  · exact dirRules_ok_iff fs (traversalRefs fs fuel)
  · exact dirRules_error_cond_iff fs (traversalRefs fs fuel) _ _
      (fun i => checkIdx_eq_M9_iff fs (traversalRefs fs fuel) i)
  · exact dirRules_error_cond_iff fs (traversalRefs fs fuel) _ _
      (fun i => checkIdx_eq_M10_iff fs (traversalRefs fs fuel) i)
  · exact dirRules_error_cond_iff fs (traversalRefs fs fuel) _ _
      (fun i => checkIdx_eq_M11_iff fs (traversalRefs fs fuel) i)
  · exact dirRules_error_cond_iff fs (traversalRefs fs fuel) _ _
      (fun i => checkIdx_eq_M12_iff fs (traversalRefs fs fuel) i)

/-- Claim C6, witness: on `fsC3` (whose traversal empties in 2 steps and
leaves inode 2 — an in-use file — with count 0), the first check at the
first index fires. -/
theorem fcheck_C6_witness :
    validate_directory_rules fsC3 2 =
      Except.error "inode marked use but not found in a directory." :=
  (fcheck_C6 fsC3 2).2.1.mpr
    ⟨2, by omega, by decide, ⟨by decide, rfl⟩, fun j hj1 hj2 => by omega⟩

/-- Claim C7: for an inode whose type is non-zero, `validate_inode_type`
fails with `bad inode.` exactly when the type is not one of Directory (1),
RegularFile (2), Device (3); and a free inode (type 0) is skipped by the
whole per-inode pass of `validate_inodes`, which returns success for it. -/
theorem fcheck_C7 (fs : FSImage) (idx : Nat) :
    ((fs.inode idx).itype ≠ 0 →
      (validate_inode_type (fs.inode idx) = Except.error "bad inode." ↔
        ¬((fs.inode idx).itype = 1 ∨ (fs.inode idx).itype = 2 ∨
          (fs.inode idx).itype = 3))) ∧
    ((fs.inode idx).itype = 0 → processInode fs idx = Except.ok ()) := by
  constructor
  · intro h0
    unfold validate_inode_type
    split_ifs with h
    · simp only [true_iff]
      tauto
    · simp only [false_iff]
      tauto
  · intro h0
    unfold processInode
    dsimp only
    rw [if_pos h0]

/-- Claim C7, witness: inode 1 of `fsC1` has the non-zero invalid type 7. -/
theorem fcheck_C7_witness :
    validate_inode_type (fsC1.inode 1) = Except.error "bad inode." :=
  ((fcheck_C7 fsC1 1).1 (by decide)).mpr (by decide)

/-- Claim C8: the reference-count traversal terminates on every image whose
directory graph (edges: the entries a popped directory follows, i.e. named
neither `.` nor `..` and with non-zero inode number) is acyclic — the
2-byte directory inode numbers bound the node space; and on an image with
such a cycle reachable from the root, the traversal never empties its
stack: no number of loop iterations terminates it. -/
theorem fcheck_C8 (fs : FSImage) :
    ((∀ b e, (fs.direntAt b e).inum < 65536) →
      (∀ i, ¬ Relation.TransGen (childEdge fs) i i) → ScanTerminates fs) ∧
    ((∃ c, Relation.ReflTransGen (childEdge fs) 1 c ∧
        Relation.TransGen (childEdge fs) c c) → ¬ ScanTerminates fs) := by
  constructor
  · intro hb hacyc
    exact scan_halts_of_acc fs [1] (fun i _ => acc_childEdge fs hb hacyc i)
      initialRefs
  · rintro ⟨c, h1c, hcc⟩ ⟨n, hn⟩
    have hinv := scan_cycle_inv fs n [1] initialRefs
      ⟨1, List.mem_singleton.mpr rfl, c, h1c, hcc⟩
    rw [hn] at hinv
    obtain ⟨i, hi, _⟩ := hinv
    cases hi

theorem fsC3_children_nil : ∀ i, childrenOf fsC3 i = [] := by
  intro i
  by_cases h1 : i = 1
  · subst h1; decide
  · by_cases h2 : i = 2
    · subst h2; decide
    · by_cases h3 : i = 3
      · subst h3; decide
      · have ht : (fsC3.inode i).itype ≠ 1 := by
          show (if i = 1 then (⟨1, 1, onlyAddr0 6⟩ : Dinode)
            else if i = 2 then ⟨2, 1, onlyAddr0 8⟩
            else if i = 3 then ⟨7, 0, zeroAddrs⟩
            else freeInode).itype ≠ 1
          rw [if_neg h1, if_neg h2, if_neg h3]
          decide
        unfold childrenOf
        dsimp only
        rw [if_pos ht]

/-- Claim C8, witness: `fsC3`'s directory graph has no edges at all (so it
is acyclic and the traversal terminates), while `fsCyc`'s root contains an
entry pointing back to inode 1 (a reachable cycle, so the traversal never
terminates). -/
theorem fcheck_C8_witness : ScanTerminates fsC3 ∧ ¬ ScanTerminates fsCyc := by
  constructor
  · apply (fcheck_C8 fsC3).1
    · intro b e
      show (dotsAt6 b e).inum < 65536
      unfold dotsAt6 blankDirent
      split_ifs <;> decide
    · intro i h
      obtain ⟨j, hij, _⟩ := Relation.TransGen.head'_iff.mp h
      unfold childEdge at hij
      rw [fsC3_children_nil i] at hij
      cases hij
  · apply (fcheck_C8 fsCyc).2
    refine ⟨1, Relation.ReflTransGen.refl, Relation.TransGen.single ?_⟩
    show (1 : Nat) ∈ childrenOf fsCyc 1
    decide

/-- Claim C9 (code bug).  `fsC9` passes the three passes that precede the
traversal, so the traversal runs on it; popping the root follows the entry
`x` with inode number 7 and increments the reference counter at index 7,
although the superblock declares only 4 inodes — in the C program
`inode_references` has 4 elements and `inode_references[7]++` is an
out-of-bounds write, contradicting the claim that every such access is in
bounds. -/
theorem fcheck_C9 :
    validate_inodes fsC9 = Except.ok () ∧
    verify_bitmap_usage fsC9 = Except.ok () ∧
    validate_block_address_uniqueness fsC9 = Except.ok () ∧
    7 ∈ childrenOf fsC9 1 ∧
    (scan_directory_entries fsC9 2 ([1], initialRefs)).2 7 = 1 ∧
    fsC9.sb.ninodes = 4 :=
  ⟨rfl, rfl, rfl, by decide, rfl, rfl⟩

/-- Claim C10 (code bug).  On `fsC10` the whole per-inode pass succeeds —
in particular inode 2's direct address 1 passes the range check
(`1 < size`) and its bitmap bit is set — yet the index
`address - startingblock` it contributes to the usage-flag and
direct-counter arrays is `1 - 4 = -3`, outside `[0, nblocks)`: in the C
program (unsigned arithmetic) both array accesses are out of bounds,
contradicting the claim that the range check keeps them in bounds. -/
theorem fcheck_C10 :
    validate_inodes fsC10 = Except.ok () ∧
    (fsC10.inode 2).itype ≠ 0 ∧
    (fsC10.inode 2).addrs 0 = 1 ∧
    (fsC10.inode 2).addrs 0 < fsC10.sb.size ∧
    ((1 : Int) - (startingBlock fsC10.sb : Int)) ∈ usedBlocksList fsC10 ∧
    ((1 : Int) - (startingBlock fsC10.sb : Int)) ∈
      get_active_data_blocks fsC10 (fsC10.inode 2) ∧
    directCountAt fsC10 ((1 : Int) - (startingBlock fsC10.sb : Int)) = 1 ∧
    ((1 : Int) - (startingBlock fsC10.sb : Int)) < 0 :=
  ⟨rfl, by decide, rfl, by decide, by decide, by decide, rfl, by decide⟩
